import Mathlib

/-!
# Verification of the Pipeline-Server discount and coupon logic

This file gives a shallow embedding, in Lean 4, of the decision logic of a
small Express backend (two near-duplicate files, `app.js` and an unnamed
variant): the coupon discount resolver `getDiscount`, the `/discounts`
preview handler, the `/create-checkout-session` parameter construction, the
`/coupons/bulk` import loop, the `/send-email` and `/subscription-status`
handlers, and the validation / exception-catching structure of the handlers.

Conventions of the embedding:
* JavaScript `undefined`/`null` object fields become `Option`;
  `a === b` on possibly-undefined fields becomes `==` on `Option` values
  (so `undefined === undefined` is `true`, matching JS).
* A provider SDK call (`stripe.*`, `resend.*`, `auth.*`) is a parameter of
  the handler, of type `Except String α`: `.error msg` models the call
  throwing an exception whose `message` is `msg`.
* A handler that wraps its body in `try/catch` is a total function returning
  a response; a handler with no `try/catch` returns `Except String Response`,
  where `.error` models an exception escaping the handler uncaught.
* JS numbers used for percentages are modelled as `ℚ` (the claims are about
  exact arithmetic relations, not rounding).
-/

/-- The `metadata` object of a Stripe coupon as used by this server:
at most one of `allowed_email` / `allowed_domain` is set by the creation
routes, but the embedding allows any combination, as Stripe itself does. -/
structure CouponMetadata where
  allowed_email : Option String
  allowed_domain : Option String
deriving DecidableEq, Repr

/-- A Stripe coupon, restricted to the fields this server reads. -/
structure Coupon where
  id : String
  percent_off : ℚ
  max_redemptions : Option Nat
  times_redeemed : Nat
  name : Option String
  metadata : CouponMetadata
deriving DecidableEq, Repr

/-- JS `x || fallback` on a possibly-undefined string field: the fallback is
used when the field is `undefined` or the empty string (both falsy). -/
def jsStringOr (s : Option String) (fallback : String) : String :=
  match s with
  | some v => if v = "" then fallback else v
  | none => fallback

/-- JS `String.prototype.split` with a single-character separator, on the
character list of the string: `"".split(sep)` is `[""]`, separators at the
ends produce empty segments. -/
def jsSplit (sep : Char) : List Char → List (List Char)
  | [] => [[]]
  | c :: rest =>
    if c = sep then [] :: jsSplit sep rest
    else
      match jsSplit sep rest with
      | [] => [[c]]
      | h :: t => (c :: h) :: t

/-- The value `email.split("@")[1]` — the domain string the handlers derive from the
requester email; `none` models JS `undefined` (no `"@"` in the email). -/
def emailDomain (email : String) : Option String :=
  ((jsSplit '@' email.data).get? 1).map List.asString

/-- Modelled from the spec: "Derive the domain as the substring after the
first `@` in the email" — everything following the first `'@'`, undefined
when the email has no `'@'`. Used only to compare against `emailDomain`. -/
def specDomainAfterFirstAt (email : String) : Option String :=
  if '@' ∈ email.data then
    some ((email.data.dropWhile (fun c => c ≠ '@')).tail).asString
  else
    none

/-- The helper function `getDiscount(coupons, email, domain)` of `app.js`:
filter the email coupons and the domain coupons, return the first email
coupon if any, else the first domain coupon if any, else `null`. -/
def getDiscount (coupons : List Coupon) (email : String) (domain : Option String) :
    Option Coupon :=
  let emailCoupons := coupons.filter (fun c => c.metadata.allowed_email == some email)
  let domainCoupons := coupons.filter (fun c => c.metadata.allowed_domain == domain)
  match emailCoupons.find? (fun c => c.metadata.allowed_email == some email) with
  | some emailDiscount => some emailDiscount
  | none =>
    match domainCoupons.find? (fun c => c.metadata.allowed_domain == domain) with
    | some domainDiscount => some domainDiscount
    | none => none

/-- An HTTP response: a status code and a JSON body of handler-specific shape. -/
structure Resp (β : Type) where
  status : Nat
  body : β
deriving DecidableEq, Repr

/-- The non-null `discount` object returned by `POST /discounts`:
`discount.percent_off / 100` and `discount.metadata.allowed_domain`. -/
structure DiscountInfo where
  discount : ℚ
  domain : Option String
deriving DecidableEq, Repr

/-- The `POST /discounts` handler. There is no `try/catch`: a throwing
`stripe.coupons.list` call escapes uncaught (`.error`). The body of the
200 response is `{ discount: null }` (`none`) or `{ discount: {...} }`. -/
def discountsHandler (email : String) (couponsResult : Except String (List Coupon)) :
    Except String (Resp (Option DiscountInfo)) :=
  let dom := emailDomain email
  match couponsResult with
  | .error e => .error e
  | .ok coupons =>
    match getDiscount coupons email dom with
    | none => .ok ⟨200, none⟩
    | some discount =>
      if discount.max_redemptions == some discount.times_redeemed then
        .ok ⟨200, none⟩
      else
        .ok ⟨200, some ⟨discount.percent_off / 100, discount.metadata.allowed_domain⟩⟩

/-- A `discounts` entry of the checkout parameters: `{ coupon: <id> }`. -/
structure CheckoutDiscount where
  coupon : String
deriving DecidableEq, Repr

/-- A checkout `line_items` entry: `{ price, quantity }`. -/
structure LineItem where
  price : String
  quantity : Nat
deriving DecidableEq, Repr

/-- The `checkoutParams` object built by `POST /create-checkout-session`;
`discounts = none` models the field being absent. -/
structure CheckoutParams where
  payment_method_types : List String
  mode : String
  line_items : List LineItem
  customer : String
  success_url : String
  cancel_url : String
  discounts : Option (List CheckoutDiscount)
deriving DecidableEq, Repr

/-- The construction of `checkoutParams` in `POST /create-checkout-session`:
resolve the discount with `getDiscount` over all listed coupons (no
exhaustion filtering) and attach `discounts: [{coupon: discount.id}]`
exactly when the resolver returned a coupon. -/
def checkoutSessionParams (subscriptionPriceId frontendUrl customerId email : String)
    (coupons : List Coupon) : CheckoutParams :=
  let dom := emailDomain email
  let discount := getDiscount coupons email dom
  { payment_method_types := ["card"]
    mode := "subscription"
    line_items := [⟨subscriptionPriceId, 1⟩]
    customer := customerId
    success_url := frontendUrl
    cancel_url := frontendUrl ++ "/pricing?error=true"
    discounts :=
      match discount with
      | some d => some [⟨d.id⟩]
      | none => none }

/-- The `POST /create-checkout-session` handler: the coupon listing is not
wrapped in `try/catch` (its exception escapes), while the session-creation
call is (its failure yields `500 { sessionUrl: null }`). -/
def checkoutSessionHandler (subscriptionPriceId frontendUrl email customerId : String)
    (couponsResult : Except String (List Coupon))
    (createSession : CheckoutParams → Except String String) :
    Except String (Resp (Option String)) := do
  let coupons ← couponsResult
  let params := checkoutSessionParams subscriptionPriceId frontendUrl customerId email coupons
  match createSession params with
  | .ok url => pure ⟨200, some url⟩
  | .error _ => pure ⟨500, none⟩

/-- A request-body field that is expected to hold a JSON array:
`absent` (the field is missing), `nonArray` (present but fails
`Array.isArray`), or `items xs` (an actual array). -/
inductive ListField (α : Type) where
  | absent : ListField α
  | nonArray : ListField α
  | items : List α → ListField α
deriving DecidableEq, Repr

/-- One entry of the `emailObjects` array of `POST /send-email`. -/
structure EmailObject where
  email : String
  invitedBy : String
  paper : String
  contributions : String
deriving DecidableEq, Repr

/-- One message of the batch handed to `resend.batch.send`. -/
structure EmailMessage where
  fromAddr : String
  toAddr : String
  subject : String
  text : String
deriving DecidableEq, Repr

/-- A body of shape `{ error: ... }` or `{ message: ... }`. -/
inductive SimpleBody where
  | errorBody : String → SimpleBody
  | messageBody : String → SimpleBody
deriving DecidableEq, Repr

/-- The mapping of `payload.emailObjects` to the batch submitted to the
email provider (fields `from`/`to` of the source are `fromAddr`/`toAddr`
here because `from` and `to` are Lean keywords). -/
def buildInvitationEmails (senderEmail : String) (objs : List EmailObject) :
    List EmailMessage :=
  objs.map (fun obj =>
    ⟨senderEmail, obj.email, "Research Paper Invitation",
      obj.invitedBy ++ " added you as a co-author of the work \"" ++ obj.paper ++
        "\" with the following contribution: " ++ obj.contributions ++
        ". If you want to check the status of the publication, please follow this link <NO LINK YET>"⟩)

/-- The `POST /send-email` handler: a missing, non-array or empty
`emailObjects` field is rejected with a 400 before the provider is invoked;
there is no `try/catch`, so an exception of `resend.batch.send`
escapes the handler uncaught (`.error`). -/
def sendEmailHandler (senderEmail : String) (emailObjects : ListField EmailObject)
    (send : List EmailMessage → Except String Unit) :
    Except String (Resp SimpleBody) :=
  match emailObjects with
  | .items objs =>
    if objs.length < 1 then
      pure ⟨400, .errorBody "Please provide list of emails to send email to"⟩
    else do
      let _ ← send (buildInvitationEmails senderEmail objs)
      pure ⟨200, .messageBody "Emails has been sent"⟩
  | _ => pure ⟨400, .errorBody "Please provide list of emails to send email to"⟩

/-- The `POST /delete-user` handler: the identity-provider call is wrapped
in `try/catch`, so the handler always produces a response. -/
def deleteUserHandler (userUid : String) (deleteUser : String → Except String Unit) :
    Resp SimpleBody :=
  match deleteUser userUid with
  | .ok _ => ⟨200, .messageBody "User deleted successfully"⟩
  | .error _ => ⟨500, .errorBody "Failed to delete user"⟩

/-- A Stripe customer as used by `POST /create-customer`. -/
structure Customer where
  id : String
deriving DecidableEq, Repr

/-- The `POST /create-customer` handler: no `try/catch`, so an exception of
`stripe.customers.create` escapes uncaught; on success the body is
`{ customerId: customer.id }` (modelled as the id string). -/
def createCustomerHandler (email authId : String)
    (create : String → String → Except String Customer) :
    Except String (Resp String) := do
  let customer ← create email authId
  pure ⟨200, customer.id⟩

/-- The `POST /delete-stripe-customer` handler: provider call wrapped in
`try/catch`. -/
def deleteStripeCustomerHandler (customerId : String)
    (delCustomer : String → Except String Unit) : Resp SimpleBody :=
  match delCustomer customerId with
  | .ok _ => ⟨200, .messageBody "Stripe customer deleted successfully"⟩
  | .error _ => ⟨500, .errorBody "Failed to delete stripe customer"⟩

/-- A Stripe price: its id and the id of its parent product. -/
structure Price where
  id : String
  product : String
deriving DecidableEq, Repr

/-- A Stripe product: its id and (possibly empty or absent) display name. -/
structure Product where
  id : String
  name : Option String
deriving DecidableEq, Repr

/-- One entry of `subscription.items.data`. -/
structure SubscriptionItem where
  price : Price
  current_period_end : Int
deriving DecidableEq, Repr

/-- A Stripe subscription, restricted to the fields this server reads. -/
structure Subscription where
  id : String
  status : String
  items : List SubscriptionItem
deriving DecidableEq, Repr

/-- The success body of `GET /subscription-status/:customerId`;
`subscriptionId = none` models the field being absent. -/
structure SubStatusBody where
  hasSubscription : Bool
  status : Option String
  currentPeriodEnd : Option Int
  planName : Option String
  subscriptionId : Option String
deriving DecidableEq, Repr

/-- Body of a `GET /subscription-status` response: the subscription info
or the `{ error: ... }` body of the 500 branch. -/
inductive SubStatusResult where
  | info : SubStatusBody → SubStatusResult
  | failure : String → SubStatusResult
deriving DecidableEq, Repr

/-- The `try` block of `GET /subscription-status/:customerId`:
list the customer's subscriptions (at most one), answer the no-subscription
shape if there are none, otherwise resolve the first item's price and that
price's product. `subscription.items.data[0]?.price.id` is the
optional-chained price id; `retrievePrice none` models
`stripe.prices.retrieve(undefined)`, which throws. The unguarded
`subscription.items.data[0].current_period_end` access throws a `TypeError`
when the item list is empty. -/
def subscriptionStatusCore (listResult : Except String (List Subscription))
    (retrievePrice : Option String → Except String Price)
    (retrieveProduct : String → Except String Product) :
    Except String (Resp SubStatusResult) := do
  let subs ← listResult
  match subs with
  | [] => pure ⟨200, .info ⟨false, none, none, none, none⟩⟩
  | subscription :: _ =>
    let priceId := subscription.items.head?.map (fun it => it.price.id)
    let price ← retrievePrice priceId
    let product ← retrieveProduct price.product
    match subscription.items.head? with
    | some item0 =>
      pure ⟨200, .info ⟨true, some subscription.status, some item0.current_period_end,
        some (jsStringOr product.name "Unknown Plan"), some subscription.id⟩⟩
    | none => .error "TypeError: Cannot read properties of undefined"

/-- The `GET /subscription-status/:customerId` handler: the whole body is
wrapped in `try/catch`, any exception becoming a 500 response. -/
def subscriptionStatusHandler (listResult : Except String (List Subscription))
    (retrievePrice : Option String → Except String Price)
    (retrieveProduct : String → Except String Product) : Resp SubStatusResult :=
  match subscriptionStatusCore listResult retrievePrice retrieveProduct with
  | .ok r => r
  | .error _ => ⟨500, .failure "Failed to fetch subscription status"⟩

/-- One entry of the `coupons` array of `POST /coupons/bulk`, restricted to
the fields the dispatch and error reporting read (`type` and `name`); the
payload fields forwarded to `stripe.coupons.create` are absorbed into the
creation parameters below. -/
structure BulkCoupon where
  type : String
  name : Option String
deriving DecidableEq, Repr

/-- One entry of the `errors` array of the bulk-import response:
`{ row, coupon, error }`. -/
structure BulkError where
  row : Nat
  coupon : String
  error : String
deriving DecidableEq, Repr

/-- The body of the per-row `try` block of the bulk-import loop: dispatch on
`coupon.type` to the domain-coupon or email-coupon creation call
(`createDomain` / `createEmail` model `stripe.coupons.create` on the payload
built from the row), any other type throwing
`Invalid coupon type: <type>`. -/
def bulkRowOutcome (createDomain createEmail : BulkCoupon → Except String Unit)
    (c : BulkCoupon) : Except String Unit :=
  if c.type = "domain" then createDomain c
  else if c.type = "email" then createEmail c
  else .error ("Invalid coupon type: " ++ c.type)

/-- The accumulated state of the bulk-import loop: the `created` and
`failed` counters and the `errors` array. -/
structure BulkState where
  created : Nat
  failed : Nat
  errors : List BulkError
deriving DecidableEq, Repr

/-- The bulk-import loop from row index `i` on: each row's failure is caught
individually (`catch` increments `failed` and pushes
`{ row: i+1, coupon: coupon.name || "Row " + (i+1), error: message }`),
and the loop continues with the remaining rows. -/
def bulkProcess (createDomain createEmail : BulkCoupon → Except String Unit) :
    Nat → List BulkCoupon → BulkState
  | _, [] => ⟨0, 0, []⟩
  | i, c :: rest =>
    let st := bulkProcess createDomain createEmail (i + 1) rest
    match bulkRowOutcome createDomain createEmail c with
    | .ok _ => ⟨st.created + 1, st.failed, st.errors⟩
    | .error msg =>
      ⟨st.created, st.failed + 1,
        ⟨i + 1, jsStringOr c.name ("Row " ++ toString (i + 1)), msg⟩ :: st.errors⟩

/-- The success body of `POST /coupons/bulk`: `{ created, failed, total,
errors? }`, with `errors = none` modelling
`errors.length > 0 ? errors : undefined`. -/
structure BulkOkBody where
  created : Nat
  failed : Nat
  total : Nat
  errors : Option (List BulkError)
deriving DecidableEq, Repr

/-- Body of a bulk-import response: the result record or an
`{ error: ... }` body. -/
inductive BulkBody where
  | result : BulkOkBody → BulkBody
  | errorBody : String → BulkBody
deriving DecidableEq, Repr

/-- The `POST /coupons/bulk` handler: a missing, non-array or empty
`coupons` field is rejected with a 400 before any row is processed;
otherwise the loop runs over all rows and the counts and collected errors
are returned with status 200. -/
def bulkHandler (createDomain createEmail : BulkCoupon → Except String Unit)
    (coupons : ListField BulkCoupon) : Resp BulkBody :=
  match coupons with
  | .items cs =>
    if cs.length = 0 then ⟨400, .errorBody "Please provide an array of coupons"⟩
    else
      let st := bulkProcess createDomain createEmail 0 cs
      ⟨200, .result ⟨st.created, st.failed, cs.length,
        if st.errors.length > 0 then some st.errors else none⟩⟩
  | _ => ⟨400, .errorBody "Please provide an array of coupons"⟩

/-- The error entry the loop produces for the row at (0-based) index `p.1`
holding coupon `p.2`, `none` when that row succeeds; used to characterise
the `errors` array row by row. -/
def errEntry (createDomain createEmail : BulkCoupon → Except String Unit)
    (p : Nat × BulkCoupon) : Option BulkError :=
  match bulkRowOutcome createDomain createEmail p.2 with
  | .ok _ => none
  | .error msg =>
    some ⟨p.1 + 1, jsStringOr p.2.name ("Row " ++ toString (p.1 + 1)), msg⟩

/-- Whether the row `c` succeeds against the given creation calls. -/
def rowOk (createDomain createEmail : BulkCoupon → Except String Unit)
    (c : BulkCoupon) : Bool :=
  match bulkRowOutcome createDomain createEmail c with
  | .ok _ => true
  | .error _ => false

/-- Body of a `POST /create-customer-session` response: the pricing-table
session's `client_secret` (as `checkoutSessionSecret`) or an
`{ error: ... }` body. -/
inductive SessionBody where
  | secret : String → SessionBody
  | errorBody : String → SessionBody
deriving DecidableEq, Repr

/-- The `POST /create-customer-session` handler: the
`stripe.customerSessions.create` call (modelled by `createSession`, from
the customer id to the created session's `client_secret`) is wrapped in
`try/catch`; its failure yields
`500 { error: "Failed to create checkout session" }`. -/
def customerSessionHandler (customerId : String)
    (createSession : String → Except String String) : Resp SessionBody :=
  match createSession customerId with
  | .ok clientSecret => ⟨200, .secret clientSecret⟩
  | .error _ => ⟨500, .errorBody "Failed to create checkout session"⟩

/-- The `GET /coupons` handler: `stripe.coupons.list` is wrapped in
`try/catch`; success answers the listed coupons, failure a 500 with an
empty-array body. -/
def couponsListHandler (listResult : Except String (List Coupon)) :
    Resp (List Coupon) :=
  match listResult with
  | .ok coupons => ⟨200, coupons⟩
  | .error _ => ⟨500, []⟩

/-- Body of a single-coupon creation response: the created coupon (201) or
an `{ error: error.message }` body (500). -/
inductive CouponBody where
  | coupon : Coupon → CouponBody
  | errorBody : String → CouponBody
deriving DecidableEq, Repr

/-- The `POST /coupons` (domain-coupon creation) handler: the
`stripe.coupons.create` call on the domain payload built from the request
body (modelled by `createResult`) is wrapped in `try/catch`; its failure
yields `500 { error: error.message }`. -/
def couponsCreateHandler (createResult : Except String Coupon) : Resp CouponBody :=
  match createResult with
  | .ok coupon => ⟨201, .coupon coupon⟩
  | .error msg => ⟨500, .errorBody msg⟩

/-- The `POST /manual-override-coupons` (email-coupon creation) handler:
same `try/catch` shape as the domain-coupon creation, over the email
payload. -/
def manualOverrideCouponsHandler (createResult : Except String Coupon) :
    Resp CouponBody :=
  match createResult with
  | .ok coupon => ⟨201, .coupon coupon⟩
  | .error msg => ⟨500, .errorBody msg⟩

/-- The `DELETE /coupons/:couponId` handler: `stripe.coupons.del` wrapped
in `try/catch`; failure yields `500 { error: error.message }`. -/
def couponsDeleteHandler (couponId : String)
    (delCoupon : String → Except String Unit) : Resp SimpleBody :=
  match delCoupon couponId with
  | .ok _ => ⟨200, .messageBody "Coupon deleted successfully"⟩
  | .error msg => ⟨500, .errorBody msg⟩

/-- Concrete bulk rows used in witness instantiations: a valid domain row,
an invalid-type row and a valid email row. -/
def sampleBulkRows : List BulkCoupon :=
  [⟨"domain", some "Acme"⟩, ⟨"bogus", none⟩, ⟨"email", some "Solo"⟩]

/-- A concrete email coupon for `a@x.com`, used to instantiate witnesses. -/
def sampleEmailCoupon : Coupon :=
  ⟨"c_email", 20, some 1, 0, some "Email coupon", ⟨some "a@x.com", none⟩⟩

/-- A concrete domain coupon for `x.com`, used to instantiate witnesses. -/
def sampleDomainCoupon : Coupon :=
  ⟨"c_domain", 30, some 5, 0, some "Domain coupon", ⟨none, some "x.com"⟩⟩

/-- A concrete domain coupon with no `max_redemptions`, used to instantiate
witnesses. -/
def sampleUnlimitedCoupon : Coupon :=
  ⟨"c_unlimited", 40, none, 7, some "Unlimited coupon", ⟨none, some "x.com"⟩⟩

/-- Searching a list already filtered by `p` with the same predicate `p`
finds the same element as searching the original list. -/
theorem find?_filter_self {α : Type} (p : α → Bool) (l : List α) :
    (l.filter p).find? p = l.find? p := by
  induction l with
  | nil => rfl
  | cons c rest ih =>
    by_cases h : p c
    · simp [List.filter_cons, List.find?_cons, h]
    · simp [List.filter_cons, List.find?_cons, h, ih]

/-- The resolver `getDiscount` is the first email-coupon match, or else the first
domain-coupon match, in provider order. -/
theorem getDiscount_eq_orElse (coupons : List Coupon) (email : String)
    (domain : Option String) :
    getDiscount coupons email domain =
      (coupons.find? (fun c => c.metadata.allowed_email == some email)).orElse
        (fun _ => coupons.find? (fun c => c.metadata.allowed_domain == domain)) := by
  simp only [getDiscount, find?_filter_self]
  cases coupons.find? (fun c => c.metadata.allowed_email == some email) with
  | some e => rfl
  | none => cases coupons.find? (fun c => c.metadata.allowed_domain == domain) <;> rfl

/-- C1: `getDiscount` returns the first coupon in provider order whose
metadata `allowed_email` equals the requester email if any such coupon
exists; otherwise the first coupon whose metadata `allowed_domain` equals
the derived domain if any such coupon exists; otherwise `none`. -/
theorem getDiscount_priority (coupons : List Coupon) (email : String)
    (domain : Option String) :
    ((∃ c ∈ coupons, c.metadata.allowed_email = some email) →
      getDiscount coupons email domain =
        coupons.find? (fun c => c.metadata.allowed_email == some email))
    ∧ ((∀ c ∈ coupons, c.metadata.allowed_email ≠ some email) →
        (∃ c ∈ coupons, c.metadata.allowed_domain = domain) →
        getDiscount coupons email domain =
          coupons.find? (fun c => c.metadata.allowed_domain == domain))
    ∧ ((∀ c ∈ coupons, c.metadata.allowed_email ≠ some email) →
        (∀ c ∈ coupons, c.metadata.allowed_domain ≠ domain) →
        getDiscount coupons email domain = none) := by
  rw [getDiscount_eq_orElse]
  refine ⟨?_, ?_, ?_⟩
  · rintro ⟨c, hc, hceq⟩
    cases hE : coupons.find? (fun c => c.metadata.allowed_email == some email) with
    | some e => simp [hE, Option.orElse]
    | none =>
      exact absurd hceq (by simpa using List.find?_eq_none.mp hE c hc)
  · intro hnone hex
    have hE : coupons.find? (fun c => c.metadata.allowed_email == some email) = none :=
      List.find?_eq_none.mpr (fun a ha => by simpa using hnone a ha)
    rw [hE]
    rfl
  · intro hnoneE hnoneD
    have hE : coupons.find? (fun c => c.metadata.allowed_email == some email) = none :=
      List.find?_eq_none.mpr (fun a ha => by simpa using hnoneE a ha)
    have hD : coupons.find? (fun c => c.metadata.allowed_domain == domain) = none :=
      List.find?_eq_none.mpr (fun a ha => by simpa using hnoneD a ha)
    rw [hE, hD]
    rfl

/-- Witness for C1: on a concrete list holding a domain coupon before an
email coupon, the resolver returns the first email match. -/
theorem getDiscount_priority_witness :
    getDiscount [sampleDomainCoupon, sampleEmailCoupon] "a@x.com" (some "x.com") =
      List.find? (fun c => c.metadata.allowed_email == some "a@x.com")
        [sampleDomainCoupon, sampleEmailCoupon] :=
  (getDiscount_priority [sampleDomainCoupon, sampleEmailCoupon] "a@x.com"
      (some "x.com")).1
    ⟨sampleEmailCoupon, by decide, by decide⟩

/-- The first segment of a JS split is the run of characters before the
first separator. -/
theorem jsSplit_head? (sep : Char) (v : List Char) :
    (jsSplit sep v).head? = some (v.takeWhile (fun c => c != sep)) := by
  induction v with
  | nil => rfl
  | cons c rest ih =>
    by_cases h : c = sep
    · simp [jsSplit, h, List.takeWhile_cons]
    · cases hj : jsSplit sep rest with
      | nil => rw [hj] at ih; exact absurd ih (by simp)
      | cons hd tl =>
        rw [hj] at ih
        simp only [List.head?] at ih
        simp [jsSplit, h, hj, List.takeWhile_cons, Option.some.injEq] at ih ⊢
        exact ih

/-- Splitting a list that starts with a separator-free prefix `u` followed
by a separator yields `u` as the first segment, then the split of the
rest. -/
theorem jsSplit_append_sep (sep : Char) (u v : List Char) (hu : sep ∉ u) :
    jsSplit sep (u ++ sep :: v) = u :: jsSplit sep v := by
  induction u with
  | nil => simp [jsSplit]
  | cons c u' ih =>
    have hc : ¬ c = sep := fun h => hu (h ▸ List.mem_cons_self c u')
    have hu' : sep ∉ u' := fun h => hu (List.mem_cons_of_mem c h)
    simp only [List.cons_append, jsSplit, if_neg hc, List.append_eq, ih hu']

/-- A `takeWhile` keeps the whole list when the predicate holds everywhere. -/
theorem takeWhile_eq_self_of_all {α : Type} (p : α → Bool) (l : List α)
    (h : ∀ a ∈ l, p a = true) : l.takeWhile p = l := by
  induction l with
  | nil => rfl
  | cons c rest ih =>
    rw [List.takeWhile_cons, if_pos (h c (List.mem_cons_self c rest))]
    exact congrArg (c :: ·) (ih (fun a ha => h a (List.mem_cons_of_mem c ha)))

/-- A `dropWhile` skips over a prefix on which the predicate holds
everywhere. -/
theorem dropWhile_append_of_all {α : Type} (p : α → Bool) (l₁ l₂ : List α)
    (h : ∀ a ∈ l₁, p a = true) :
    (l₁ ++ l₂).dropWhile p = l₂.dropWhile p := by
  induction l₁ with
  | nil => rfl
  | cons c rest ih =>
    rw [List.cons_append, List.dropWhile_cons,
      if_pos (h c (List.mem_cons_self c rest))]
    exact ih (fun a ha => h a (List.mem_cons_of_mem c ha))

/-- Counterexample to C5: for an email holding two `"@"` characters the
derived domain (`email.split("@")[1]`, used by both the preview and the
checkout-session handler) is the segment between the two `"@"`s, not the
whole substring after the first `"@"`. -/
theorem emailDomain_counterexample :
    emailDomain "a@x.com@evil.com" = some "x.com"
    ∧ specDomainAfterFirstAt "a@x.com@evil.com" = some "x.com@evil.com"
    ∧ emailDomain "a@x.com@evil.com" ≠ specDomainAfterFirstAt "a@x.com@evil.com" := by
  refine ⟨by decide, by decide, by decide⟩

/-- C5 (amended): for an email of the form `u ++ "@" ++ v` with `u`
`"@"`-free, the domain used by the preview and checkout-session handlers is
the prefix of `v` up to the next `"@"` (the second `"@"`-separated segment
of the email); when the email contains exactly one `"@"` this coincides with
the substring after the first `"@"`. -/
theorem emailDomain_amended (u v : List Char) (hu : '@' ∉ u) :
    emailDomain (String.mk (u ++ '@' :: v)) =
      some (v.takeWhile (fun c => c != '@')).asString
    ∧ ('@' ∉ v →
        emailDomain (String.mk (u ++ '@' :: v)) =
          specDomainAfterFirstAt (String.mk (u ++ '@' :: v))) := by
  have hsplit := jsSplit_append_sep '@' u v hu
  have hhead := jsSplit_head? '@' v
  have hdom : emailDomain (String.mk (u ++ '@' :: v)) =
      some (v.takeWhile (fun c => c != '@')).asString := by
    unfold emailDomain
    show ((jsSplit '@' (u ++ '@' :: v)).get? 1).map List.asString = _
    rw [hsplit]
    cases hj : jsSplit '@' v with
    | nil => rw [hj] at hhead; exact absurd hhead (by simp)
    | cons hd tl =>
      rw [hj] at hhead
      simp only [List.head?, Option.some.injEq] at hhead
      simp [hhead]
  refine ⟨hdom, fun hv => ?_⟩
  rw [hdom]
  unfold specDomainAfterFirstAt
  have hmem : '@' ∈ (String.mk (u ++ '@' :: v)).data := by
    show '@' ∈ u ++ '@' :: v
    exact List.mem_append_right u (List.mem_cons_self _ _)
  rw [if_pos hmem]
  show some (v.takeWhile (fun c => c != '@')).asString =
    some (((u ++ '@' :: v).dropWhile (fun c => decide ¬c = '@')).tail).asString
  have hall : ∀ a ∈ u, (fun c => decide ¬c = '@') a = true := by
    intro a ha
    simp only [decide_eq_true_eq]
    exact fun h => hu (h ▸ ha)
  rw [dropWhile_append_of_all _ u ('@' :: v) hall]
  rw [List.dropWhile_cons, if_neg (by simp)]
  have htake : v.takeWhile (fun c => c != '@') = v :=
    takeWhile_eq_self_of_all _ v (fun a ha => by
      simp only [bne_iff_ne, ne_eq, decide_eq_true_eq]
      exact fun h => hv (h ▸ ha))
  rw [htake]
  rfl

/-- Witness for C5 (amended): instantiated at `"a@x.com"`
(`u = "a"`, `v = "x.com"`), the derived domain is `"x.com"`, which is also
the substring after the single `"@"`. -/
theorem emailDomain_amended_witness :
    emailDomain (String.mk (['a'] ++ '@' :: ['x', '.', 'c', 'o', 'm'])) =
      some ((['x', '.', 'c', 'o', 'm'].takeWhile (fun c => c != '@')).asString)
    ∧ emailDomain (String.mk (['a'] ++ '@' :: ['x', '.', 'c', 'o', 'm'])) =
        specDomainAfterFirstAt (String.mk (['a'] ++ '@' :: ['x', '.', 'c', 'o', 'm'])) := by
  have h := emailDomain_amended ['a'] ['x', '.', 'c', 'o', 'm'] (by decide)
  exact ⟨h.1, h.2 (by decide)⟩

/-- C4: the discount preview answers `{ discount: null }` when the resolver
returns no coupon or when the resolved coupon's `max_redemptions` equals its
`times_redeemed`; otherwise it answers the coupon's `percent_off / 100` —
a fraction in `[0,1]` whenever the percent-off lies in `[0,100]` — together
with the coupon's `allowed_domain` metadata string. -/
theorem discounts_preview_spec (email : String) (coupons : List Coupon) :
    ((getDiscount coupons email (emailDomain email) = none ∨
        ∃ d, getDiscount coupons email (emailDomain email) = some d ∧
          d.max_redemptions = some d.times_redeemed) →
      discountsHandler email (.ok coupons) = .ok ⟨200, none⟩)
    ∧ (∀ d, getDiscount coupons email (emailDomain email) = some d →
        d.max_redemptions ≠ some d.times_redeemed →
        discountsHandler email (.ok coupons) =
          .ok ⟨200, some ⟨d.percent_off / 100, d.metadata.allowed_domain⟩⟩
        ∧ (0 ≤ d.percent_off → d.percent_off ≤ 100 →
            0 ≤ d.percent_off / 100 ∧ d.percent_off / 100 ≤ 1)) := by
  constructor
  · rintro (h | ⟨d, hd, hmax⟩)
    · simp [discountsHandler, h]
    · simp [discountsHandler, hd, hmax]
  · intro d hd hne
    refine ⟨?_, fun h0 h100 => ⟨?_, ?_⟩⟩
    · simp [discountsHandler, hd, hne]
    · exact div_nonneg h0 (by norm_num)
    · exact (div_le_one (by norm_num)).mpr h100

/-- Witness for C4: on a single unexhausted domain coupon for `x.com` and
requester `a@x.com`, the preview answers the non-null discount object. -/
theorem discounts_preview_spec_witness :
    discountsHandler "a@x.com" (.ok [sampleDomainCoupon]) =
      .ok ⟨200, some ⟨sampleDomainCoupon.percent_off / 100,
        sampleDomainCoupon.metadata.allowed_domain⟩⟩ :=
  ((discounts_preview_spec "a@x.com" [sampleDomainCoupon]).2 sampleDomainCoupon
    (by decide) (by decide)).1

/-- C10: the preview's exhaustion check is a strict `===` comparison:
a resolved coupon with `max_redemptions` null is never treated as exhausted,
and one whose `times_redeemed` strictly exceeds its `max_redemptions` is
also not treated as exhausted — both are still returned as applicable. -/
theorem discounts_exhaustion_strict (email : String) (coupons : List Coupon)
    (d : Coupon) (hd : getDiscount coupons email (emailDomain email) = some d) :
    (d.max_redemptions = none →
      discountsHandler email (.ok coupons) =
        .ok ⟨200, some ⟨d.percent_off / 100, d.metadata.allowed_domain⟩⟩)
    ∧ (∀ m : Nat, d.max_redemptions = some m → m < d.times_redeemed →
      discountsHandler email (.ok coupons) =
        .ok ⟨200, some ⟨d.percent_off / 100, d.metadata.allowed_domain⟩⟩) := by
  constructor
  · intro hnone
    simp [discountsHandler, hd, hnone]
  · intro m hm hlt
    simp [discountsHandler, hd, hm, Nat.ne_of_lt hlt]

/-- Witness for C10: a domain coupon with no `max_redemptions` and seven
redemptions is still previewed as an applicable discount. -/
theorem discounts_exhaustion_strict_witness :
    discountsHandler "b@x.com" (.ok [sampleUnlimitedCoupon]) =
      .ok ⟨200, some ⟨sampleUnlimitedCoupon.percent_off / 100,
        sampleUnlimitedCoupon.metadata.allowed_domain⟩⟩ :=
  (discounts_exhaustion_strict "b@x.com" [sampleUnlimitedCoupon]
    sampleUnlimitedCoupon (by decide)).1 rfl

/-- C6: the checkout parameters carry a `discounts` list exactly when the
resolver returned a coupon — no exhaustion filtering — and the attached
entry is `[{coupon: <resolved id>}]`, even for an exhausted coupon. -/
theorem checkout_discount_iff (priceId frontendUrl customerId email : String)
    (coupons : List Coupon) :
    ((checkoutSessionParams priceId frontendUrl customerId email coupons).discounts.isSome ↔
      (getDiscount coupons email (emailDomain email)).isSome)
    ∧ (∀ d, getDiscount coupons email (emailDomain email) = some d →
        (checkoutSessionParams priceId frontendUrl customerId email coupons).discounts =
          some [⟨d.id⟩])
    ∧ (∀ d, getDiscount coupons email (emailDomain email) = some d →
        d.max_redemptions = some d.times_redeemed →
        (checkoutSessionParams priceId frontendUrl customerId email coupons).discounts =
          some [⟨d.id⟩]) := by
  cases hd : getDiscount coupons email (emailDomain email) <;>
    simp [checkoutSessionParams, hd]

/-- Witness for C6: with a single matching email coupon, the parameters
attach exactly that coupon's id. -/
theorem checkout_discount_iff_witness :
    (checkoutSessionParams "price_1" "http://front" "cus_1" "a@x.com"
      [sampleEmailCoupon]).discounts = some [⟨sampleEmailCoupon.id⟩] :=
  (checkout_discount_iff "price_1" "http://front" "cus_1" "a@x.com"
    [sampleEmailCoupon]).2.1 sampleEmailCoupon (by decide)

/-- Counterexample to C3: at a concrete valid request, an exception of the
email provider escapes the `/send-email` handler uncaught — the handler
result is the propagated exception, not a 500 response. -/
theorem provider_exception_counterexample :
    sendEmailHandler "sender@x.com" (.items [⟨"a@x.com", "B", "P", "C"⟩])
      (fun _ => .error "provider down") = .error "provider down" := rfl

/-- C7: for both list-accepting operations, a missing, non-array or empty
list field is rejected with a 400 response carrying the static message, and
the outcome does not depend on the provider functions at all (no provider
call is attempted before the rejection). -/
theorem list_input_validation (sender : String)
    (send : List EmailMessage → Except String Unit)
    (createDomain createEmail : BulkCoupon → Except String Unit) :
    sendEmailHandler sender .absent send =
      .ok ⟨400, .errorBody "Please provide list of emails to send email to"⟩
    ∧ sendEmailHandler sender .nonArray send =
      .ok ⟨400, .errorBody "Please provide list of emails to send email to"⟩
    ∧ sendEmailHandler sender (.items []) send =
      .ok ⟨400, .errorBody "Please provide list of emails to send email to"⟩
    ∧ bulkHandler createDomain createEmail .absent =
      ⟨400, .errorBody "Please provide an array of coupons"⟩
    ∧ bulkHandler createDomain createEmail .nonArray =
      ⟨400, .errorBody "Please provide an array of coupons"⟩
    ∧ bulkHandler createDomain createEmail (.items []) =
      ⟨400, .errorBody "Please provide an array of coupons"⟩ :=
  ⟨rfl, rfl, rfl, rfl, rfl, rfl⟩

/-- C8: for a customer with zero subscriptions the status handler answers
`hasSubscription = false` with `status`, `currentPeriodEnd` and `planName`
null and no `subscriptionId`, whatever the price and product lookups would
do (they are never consulted). -/
theorem subscription_status_zero
    (retrievePrice : Option String → Except String Price)
    (retrieveProduct : String → Except String Product) :
    subscriptionStatusHandler (.ok []) retrievePrice retrieveProduct =
      ⟨200, .info ⟨false, none, none, none, none⟩⟩ := rfl

/-- The `errors` array collected by the loop is exactly the per-row error
entry of each failing row, in row order. -/
theorem bulkProcess_errors (cd ce : BulkCoupon → Except String Unit) (i : Nat)
    (rows : List BulkCoupon) :
    (bulkProcess cd ce i rows).errors =
      (List.enumFrom i rows).filterMap (errEntry cd ce) := by
  induction rows generalizing i with
  | nil => rfl
  | cons c rest ih =>
    cases hc : bulkRowOutcome cd ce c with
    | ok u =>
      simp [bulkProcess, hc, List.enumFrom, List.filterMap_cons, errEntry, ih]
    | error msg =>
      simp [bulkProcess, hc, List.enumFrom, List.filterMap_cons, errEntry, ih]

/-- The `failed` counter equals the length of the collected `errors`
array. -/
theorem bulkProcess_failed_length (cd ce : BulkCoupon → Except String Unit)
    (i : Nat) (rows : List BulkCoupon) :
    (bulkProcess cd ce i rows).failed = (bulkProcess cd ce i rows).errors.length := by
  induction rows generalizing i with
  | nil => rfl
  | cons c rest ih =>
    cases hc : bulkRowOutcome cd ce c <;> simp [bulkProcess, hc, ih]

/-- Every row is counted exactly once: `created + failed` is the number of
rows. -/
theorem bulkProcess_total (cd ce : BulkCoupon → Except String Unit) (i : Nat)
    (rows : List BulkCoupon) :
    (bulkProcess cd ce i rows).created + (bulkProcess cd ce i rows).failed =
      rows.length := by
  induction rows generalizing i with
  | nil => rfl
  | cons c rest ih =>
    have h := ih (i + 1)
    cases hc : bulkRowOutcome cd ce c <;> simp [bulkProcess, hc] <;> omega

/-- The `created` counter counts exactly the rows whose own creation call succeeds. -/
theorem bulkProcess_created (cd ce : BulkCoupon → Except String Unit) (i : Nat)
    (rows : List BulkCoupon) :
    (bulkProcess cd ce i rows).created = rows.countP (rowOk cd ce) := by
  induction rows generalizing i with
  | nil => rfl
  | cons c rest ih =>
    have h := ih (i + 1)
    cases hc : bulkRowOutcome cd ce c with
    | ok u =>
      have hok : rowOk cd ce c = true := by simp [rowOk, hc]
      simp [bulkProcess, hc, List.countP_cons, hok, h]
    | error msg =>
      have hok : rowOk cd ce c = false := by simp [rowOk, hc]
      simp [bulkProcess, hc, List.countP_cons, hok, h]

/-- The `failed` counter counts exactly the rows whose own creation call fails. -/
theorem bulkProcess_failed (cd ce : BulkCoupon → Except String Unit) (i : Nat)
    (rows : List BulkCoupon) :
    (bulkProcess cd ce i rows).failed = rows.countP (fun c => !(rowOk cd ce c)) := by
  induction rows generalizing i with
  | nil => rfl
  | cons c rest ih =>
    have h := ih (i + 1)
    cases hc : bulkRowOutcome cd ce c with
    | ok u =>
      have hok : rowOk cd ce c = true := by simp [rowOk, hc]
      simp [bulkProcess, hc, List.countP_cons, hok, h]
    | error msg =>
      have hok : rowOk cd ce c = false := by simp [rowOk, hc]
      simp [bulkProcess, hc, List.countP_cons, hok, h]

/-- Every collected error entry's row number lies between `i + 1` and
`i + rows.length` when the loop starts at index `i`. -/
theorem bulkProcess_row_bounds (cd ce : BulkCoupon → Except String Unit) (i : Nat)
    (rows : List BulkCoupon) :
    ∀ e ∈ (bulkProcess cd ce i rows).errors,
      i + 1 ≤ e.row ∧ e.row ≤ i + rows.length := by
  induction rows generalizing i with
  | nil => intro e he; simp [bulkProcess] at he
  | cons c rest ih =>
    intro e he
    cases hc : bulkRowOutcome cd ce c with
    | ok u =>
      simp only [bulkProcess, hc] at he
      obtain ⟨hb1, hb2⟩ := ih (i + 1) e he
      simp only [List.length_cons]
      omega
    | error msg =>
      simp only [bulkProcess, hc, List.mem_cons] at he
      rcases he with he | he
      · subst he
        show i + 1 ≤ i + 1 ∧ i + 1 ≤ i + (c :: rest).length
        simp only [List.length_cons]
        omega
      · obtain ⟨hb1, hb2⟩ := ih (i + 1) e he
        simp only [List.length_cons]
        omega

/-- The collected error entries' row numbers are strictly increasing. -/
theorem bulkProcess_rows_sorted (cd ce : BulkCoupon → Except String Unit) (i : Nat)
    (rows : List BulkCoupon) :
    (bulkProcess cd ce i rows).errors.Pairwise (fun a b => a.row < b.row) := by
  induction rows generalizing i with
  | nil => simp [bulkProcess]
  | cons c rest ih =>
    cases hc : bulkRowOutcome cd ce c with
    | ok u => simpa only [bulkProcess, hc] using ih (i + 1)
    | error msg =>
      simp only [bulkProcess, hc, List.pairwise_cons]
      refine ⟨fun e he => ?_, ih (i + 1)⟩
      obtain ⟨hb1, hb2⟩ := bulkProcess_row_bounds cd ce (i + 1) rest e he
      show i + 1 < e.row
      omega

/-- An element retrieved by index is a member of the enumerated list, with
its shifted index. -/
theorem enumFrom_mem_of_get? {α : Type} (rows : List α) :
    ∀ (j i : Nat) (c : α), rows.get? i = some c →
      (j + i, c) ∈ List.enumFrom j rows := by
  induction rows with
  | nil => intro j i c h; simp at h
  | cons a rest ih =>
    intro j i c h
    cases i with
    | zero =>
      simp only [List.get?] at h
      cases h
      simp [List.enumFrom]
    | succ i' =>
      have hmem := ih (j + 1) i' c (by simpa using h)
      have harith : j + (i' + 1) = (j + 1) + i' := by omega
      rw [harith]
      exact List.mem_cons_of_mem _ hmem

/-- C2: for every non-empty bulk input, the response is a 200 whose
`created`/`failed` counts sum to the total (= input length) and count each
row by its own outcome; rows of type `"domain"`/`"email"` are dispatched to
the corresponding creation call; any other type is a per-row failure with
message `Invalid coupon type: <type>`; and every failing row yields an
error entry with its 1-based row number, its name (or the `Row N`
fallback) and the failure's message — independent of sibling rows. -/
theorem bulk_import_spec (cd ce : BulkCoupon → Except String Unit)
    (rows : List BulkCoupon) (h : rows ≠ []) :
    (bulkHandler cd ce (.items rows) =
      ⟨200, .result ⟨rows.countP (rowOk cd ce),
        rows.countP (fun c => !(rowOk cd ce c)), rows.length,
        if ((List.enumFrom 0 rows).filterMap (errEntry cd ce)).length > 0 then
          some ((List.enumFrom 0 rows).filterMap (errEntry cd ce))
        else none⟩⟩)
    ∧ rows.countP (rowOk cd ce) + rows.countP (fun c => !(rowOk cd ce c)) =
        rows.length
    ∧ (∀ c : BulkCoupon, c.type = "domain" → bulkRowOutcome cd ce c = cd c)
    ∧ (∀ c : BulkCoupon, c.type = "email" → bulkRowOutcome cd ce c = ce c)
    ∧ (∀ c : BulkCoupon, c.type ≠ "domain" → c.type ≠ "email" →
        bulkRowOutcome cd ce c = .error ("Invalid coupon type: " ++ c.type))
    ∧ (∀ (i : Nat) (c : BulkCoupon) (msg : String),
        rows.get? i = some c → bulkRowOutcome cd ce c = .error msg →
        (⟨i + 1, jsStringOr c.name ("Row " ++ toString (i + 1)), msg⟩ : BulkError) ∈
          (List.enumFrom 0 rows).filterMap (errEntry cd ce)) := by
  have hlen : ¬ rows.length = 0 := fun hh => h (List.length_eq_zero.mp hh)
  refine ⟨?_, ?_, ?_, ?_, ?_, ?_⟩
  · simp only [bulkHandler, if_neg hlen]
    rw [bulkProcess_created, bulkProcess_failed, bulkProcess_errors]
  · have h1 := bulkProcess_total cd ce 0 rows
    have h2 := bulkProcess_created cd ce 0 rows
    have h3 := bulkProcess_failed cd ce 0 rows
    omega
  · intro c hc; simp [bulkRowOutcome, hc]
  · intro c hc; simp [bulkRowOutcome, hc]
  · intro c h1 h2; simp [bulkRowOutcome, h1, h2]
  · intro i c msg hget houtcome
    have hmem : (i, c) ∈ List.enumFrom 0 rows := by
      simpa using enumFrom_mem_of_get? rows 0 i c hget
    exact List.mem_filterMap.mpr ⟨(i, c), hmem, by simp [errEntry, houtcome]⟩

/-- Witness for C2: the three-row import (valid domain row, bogus row,
valid email row) against always-succeeding creation calls yields
`created = 2, failed = 1, total = 3` and the single `Row 2` error entry. -/
theorem bulk_import_spec_witness :
    bulkHandler (fun _ => .ok ()) (fun _ => .ok ()) (.items sampleBulkRows) =
      ⟨200, .result ⟨2, 1, 3, some [⟨2, "Row 2", "Invalid coupon type: bogus"⟩]⟩⟩ := by
  have h := (bulk_import_spec (fun _ => .ok ()) (fun _ => .ok ()) sampleBulkRows
    (by decide)).1
  rw [h]
  rfl

/-- C9: for every non-empty bulk input, the `errors` field is omitted
exactly when no row failed; when present it has exactly `failed` entries,
their row numbers strictly increase, and each row number lies between 1 and
the input length. -/
theorem bulk_errors_invariants (cd ce : BulkCoupon → Except String Unit)
    (rows : List BulkCoupon) (h : rows ≠ []) :
    ∃ b : BulkOkBody, bulkHandler cd ce (.items rows) = ⟨200, .result b⟩
      ∧ b.failed = rows.countP (fun c => !(rowOk cd ce c))
      ∧ (b.errors = none ↔ b.failed = 0)
      ∧ (∀ l, b.errors = some l →
          l.length = b.failed
          ∧ l.Pairwise (fun a b => a.row < b.row)
          ∧ ∀ e ∈ l, 1 ≤ e.row ∧ e.row ≤ rows.length) := by
  have hlen : ¬ rows.length = 0 := fun hh => h (List.length_eq_zero.mp hh)
  have hcnt := bulkProcess_failed_length cd ce 0 rows
  refine ⟨⟨(bulkProcess cd ce 0 rows).created, (bulkProcess cd ce 0 rows).failed,
    rows.length,
    if (bulkProcess cd ce 0 rows).errors.length > 0 then
      some (bulkProcess cd ce 0 rows).errors
    else none⟩, ?_, bulkProcess_failed cd ce 0 rows, ?_, ?_⟩
  · simp only [bulkHandler, if_neg hlen]
  · by_cases hpos : (bulkProcess cd ce 0 rows).errors.length > 0
    · simp only [if_pos hpos]
      constructor
      · intro hh; exact absurd hh (by simp)
      · intro hh; omega
    · simp only [if_neg hpos]
      constructor
      · intro _; omega
      · intro _; trivial
  · intro l hl
    by_cases hpos : (bulkProcess cd ce 0 rows).errors.length > 0
    · rw [if_pos hpos] at hl
      cases hl
      refine ⟨hcnt.symm, bulkProcess_rows_sorted cd ce 0 rows, fun e he => ?_⟩
      have := bulkProcess_row_bounds cd ce 0 rows e he
      omega
    · rw [if_neg hpos] at hl
      cases hl

/-- Witness for C9: the three-row import with a failing email-creation call
has two failures (rows 2 and 3), and the invariants hold at that output. -/
theorem bulk_errors_invariants_witness :
    ∃ b : BulkOkBody, bulkHandler (fun _ => .ok ())
        (fun _ => .error "stripe error") (.items sampleBulkRows) = ⟨200, .result b⟩
      ∧ b.failed = sampleBulkRows.countP
          (fun c => !(rowOk (fun _ => .ok ()) (fun _ => .error "stripe error") c))
      ∧ (b.errors = none ↔ b.failed = 0)
      ∧ (∀ l, b.errors = some l →
          l.length = b.failed
          ∧ l.Pairwise (fun a b => a.row < b.row)
          ∧ ∀ e ∈ l, 1 ≤ e.row ∧ e.row ≤ sampleBulkRows.length) :=
  bulk_errors_invariants (fun _ => .ok ()) (fun _ => .error "stripe error")
    sampleBulkRows (by decide)

/-- C3 (amended): a provider exception is caught and reported as a 500
response exactly in the handlers that wrap the provider call in `try/catch`
(`/delete-user`, `/delete-stripe-customer`, `/subscription-status`,
`/create-customer-session`, `GET /coupons`,
`POST /coupons`, `POST /manual-override-coupons`,
`DELETE /coupons/:couponId`, and the session-creation call of
`/create-checkout-session`); in `/send-email`, `/create-customer` and
`/discounts`, and in the coupon-listing call of
`/create-checkout-session`, a provider exception escapes the handler
uncaught; and in `/coupons/bulk` a throwing creation call is caught by the
per-row `catch` and surfaces as an error entry of the 200 response, never
as a 500 at the handler boundary. -/
theorem provider_exception_amended
    (msg uid cid email authId sender priceId frontendUrl customerId couponId : String)
    (objs : List EmailObject) (hobjs : objs ≠ [])
    (retrievePrice : Option String → Except String Price)
    (retrieveProduct : String → Except String Product)
    (createSession : CheckoutParams → Except String String) :
    (deleteUserHandler uid (fun _ => .error msg)).status = 500
    ∧ (deleteStripeCustomerHandler cid (fun _ => .error msg)).status = 500
    ∧ (subscriptionStatusHandler (.error msg) retrievePrice retrieveProduct).status = 500
    ∧ (customerSessionHandler customerId (fun _ => .error msg)).status = 500
    ∧ couponsListHandler (.error msg) = ⟨500, []⟩
    ∧ couponsCreateHandler (.error msg) = ⟨500, .errorBody msg⟩
    ∧ manualOverrideCouponsHandler (.error msg) = ⟨500, .errorBody msg⟩
    ∧ couponsDeleteHandler couponId (fun _ => .error msg) = ⟨500, .errorBody msg⟩
    ∧ (∀ coupons, checkoutSessionHandler priceId frontendUrl email customerId
        (.ok coupons) (fun _ => .error msg) = .ok ⟨500, none⟩)
    ∧ sendEmailHandler sender (.items objs) (fun _ => .error msg) = .error msg
    ∧ createCustomerHandler email authId (fun _ _ => .error msg) = .error msg
    ∧ discountsHandler email (.error msg) = .error msg
    ∧ checkoutSessionHandler priceId frontendUrl email customerId (.error msg)
        createSession = .error msg
    ∧ (∀ (rowsB : List BulkCoupon) (cd ce : BulkCoupon → Except String Unit)
        (i : Nat) (c : BulkCoupon) (m : String), rowsB ≠ [] →
        rowsB.get? i = some c → bulkRowOutcome cd ce c = .error m →
        ∃ errs : List BulkError,
          bulkHandler cd ce (.items rowsB) =
            ⟨200, .result ⟨(bulkProcess cd ce 0 rowsB).created,
              (bulkProcess cd ce 0 rowsB).failed, rowsB.length, some errs⟩⟩
          ∧ (⟨i + 1, jsStringOr c.name ("Row " ++ toString (i + 1)), m⟩ : BulkError) ∈
              errs) := by
  have hlen : ¬ objs.length < 1 := by
    cases objs with
    | nil => exact absurd rfl hobjs
    | cons _ _ => simp
  refine ⟨rfl, rfl, rfl, rfl, rfl, rfl, rfl, rfl, fun coupons => rfl, ?_, rfl, rfl,
    rfl, ?_⟩
  · simp [sendEmailHandler, hlen]
  · intro rowsB cd ce i c m hne hget hout
    have hlenB : ¬ rowsB.length = 0 := fun hh => hne (List.length_eq_zero.mp hh)
    have hmem : (⟨i + 1, jsStringOr c.name ("Row " ++ toString (i + 1)), m⟩ :
        BulkError) ∈ (bulkProcess cd ce 0 rowsB).errors := by
      rw [bulkProcess_errors]
      have hmemE : (i, c) ∈ List.enumFrom 0 rowsB := by
        simpa using enumFrom_mem_of_get? rowsB 0 i c hget
      exact List.mem_filterMap.mpr ⟨(i, c), hmemE, by simp [errEntry, hout]⟩
    have hpos : (bulkProcess cd ce 0 rowsB).errors.length > 0 :=
      List.length_pos.mpr (List.ne_nil_of_mem hmem)
    refine ⟨(bulkProcess cd ce 0 rowsB).errors, ?_, hmem⟩
    simp only [bulkHandler, if_neg hlenB, if_pos hpos]

/-- Witness for C3 (amended): instantiated at concrete strings, a
one-entry email batch and always-throwing providers; the bulk conjunct is
exercised on the concrete three-row import, whose bogus second row's
caught failure appears as the `Row 2` entry of a 200 response. -/
theorem provider_exception_amended_witness :
    (deleteUserHandler "uid1" (fun _ => .error "boom")).status = 500
    ∧ (customerSessionHandler "cus_1" (fun _ => .error "boom")).status = 500
    ∧ couponsCreateHandler (.error "boom") = ⟨500, .errorBody "boom"⟩
    ∧ couponsDeleteHandler "co_1" (fun _ => .error "boom") = ⟨500, .errorBody "boom"⟩
    ∧ sendEmailHandler "s@x.com" (.items [⟨"a@x.com", "B", "P", "C"⟩])
        (fun _ => .error "boom") = .error "boom"
    ∧ discountsHandler "a@x.com" (.error "boom") = .error "boom"
    ∧ (∃ errs : List BulkError,
        bulkHandler (fun _ => .ok ()) (fun _ => .ok ()) (.items sampleBulkRows) =
          ⟨200, .result ⟨(bulkProcess (fun _ => .ok ()) (fun _ => .ok ())
              0 sampleBulkRows).created,
            (bulkProcess (fun _ => .ok ()) (fun _ => .ok ()) 0 sampleBulkRows).failed,
            sampleBulkRows.length, some errs⟩⟩
        ∧ (⟨2, "Row 2", "Invalid coupon type: bogus"⟩ : BulkError) ∈ errs) := by
  obtain ⟨h1, h2, h3, h4, h5, h6, h7, h8, h9, h10, h11, h12, h13, h14⟩ :=
    provider_exception_amended "boom" "uid1" "cus_1" "a@x.com" "auth1" "s@x.com"
      "price_1" "http://front" "cus_1" "co_1" [⟨"a@x.com", "B", "P", "C"⟩]
      (by simp) (fun _ => .error "boom") (fun _ => .error "boom")
      (fun _ => .ok "url")
  refine ⟨h1, h4, h6, h8, h10, h12, ?_⟩
  simpa using h14 sampleBulkRows (fun _ => .ok ()) (fun _ => .ok ()) 1
    ⟨"bogus", none⟩ "Invalid coupon type: bogus" (by decide) (by decide) rfl
